import Mathlib

/-!
Shallow embedding of the trend-scoring engine in `src/trend_scorer.py`
(class `TrendScorer`) of the daily-signal-feed repository.

Modelling conventions:
* Python `float` values are modelled as `ℚ`; `math.log10` (used only in the
  engagement factor) is an abstract parameter `log10 : ℚ → ℚ`, since the
  claims never depend on its values.
* `datetime` values are modelled as rational numbers of seconds; the ISO-8601
  UTC strings produced by `isoformat()` are modelled as plain strings and the
  effectful `datetime.now()` results (the snapshot timestamp and the 7-day
  cutoff, both rendered with `isoformat()` before any comparison) are passed
  as explicit string parameters.  Python compares such strings with `>=`,
  i.e. lexicographically by code point, which `pyStrGe` implements.
* `collections.Counter` and `defaultdict(set)` are modelled as association
  lists preserving Python's dict insertion order; a set is a duplicate-free
  list in insertion order (the code only takes `len` and a sample of it).
* `re.findall` is modelled by a small backtracking regular-expression engine
  (`Rex` / `runRex` / `findall`) with Python's greedy, leftmost semantics,
  ASCII character classes, and word-boundary `\b` handling.
* The history file is modelled as a JSON value (`Json`); `json.dump` followed
  by `json.load` is the identity on that value.  Python exceptions raised in
  `_load_history` are modelled with `Except PyErr`.
-/

namespace TrendScorer

/-- Association-list lookup, modelling Python `dict.get` /
`Counter.__getitem__` on insertion-ordered mappings. -/
def alookup {α : Type} (m : List (String × α)) (k : String) : Option α :=
  match m with
  | [] => none
  | (k', v) :: rest => if k' = k then some v else alookup rest k

/-- `a <= b` on char lists by code point, the order Python uses on `str`. -/
def strLeChars : List Char → List Char → Bool
  | [], _ => true
  | _ :: _, [] => false
  | a :: as, b :: bs =>
    if a.val < b.val then true
    else if b.val < a.val then false
    else strLeChars as bs

/-- Python `a >= b` on strings (lexicographic by code point). -/
def pyStrGe (a b : String) : Bool := strLeChars b.data a.data

/-- Python whitespace class `\s` (ASCII part). -/
def isSpaceChar (c : Char) : Bool :=
  c = ' ' || c = '\t' || c = '\n' || c = '\x0d' || c = '\x0b' || c = '\x0c'

/-- Python word-character class `\w` (ASCII part): alphanumeric or underscore. -/
def isWordChar (c : Char) : Bool := c.isAlphanum || c = '_'

/-- ASCII uppercase letter, the class `[A-Z]`. -/
def isUpperChar (c : Char) : Bool := 'A' ≤ c && c ≤ 'Z'

/-- The class `[A-Za-z0-9]`. -/
def isAlnumChar (c : Char) : Bool := c.isAlphanum

/-- Python `str.strip()` on a char list (ASCII whitespace). -/
def trimChars (cs : List Char) : List Char :=
  ((cs.dropWhile isSpaceChar).reverse.dropWhile isSpaceChar).reverse

/-- Python `str.strip()`. -/
def pyStrip (s : String) : String := String.mk (trimChars s.data)

/-- Python `str.lower()` (ASCII). -/
def pyLower (s : String) : String := String.mk (s.data.map Char.toLower)

/-- Python `len` on a string (number of characters). -/
def pyLen (s : String) : Nat := s.data.length

/-- Python `max(xs, default=d)`. -/
def pyMax (xs : List ℚ) (d : ℚ) : ℚ :=
  match xs with
  | [] => d
  | x :: rest => rest.foldl max x

/-- Round-half-to-even to an integer, as Python `round` does. -/
def roundHalfEven (q : ℚ) : ℤ :=
  if q - (⌊q⌋ : ℚ) < 1/2 then ⌊q⌋
  else if 1/2 < q - (⌊q⌋ : ℚ) then ⌊q⌋ + 1
  else if ⌊q⌋ % 2 = 0 then ⌊q⌋ else ⌊q⌋ + 1

/-- Python `round(q, 2)`. -/
def pyRound2 (q : ℚ) : ℚ := (roundHalfEven (q * 100) : ℚ) / 100

/-- `Counter.most_common(n)`: entries sorted by count descending, ties kept
in insertion order (Python's sort is stable and `heapq.nlargest` is
documented equivalent to `sorted(..., reverse=True)[:n]`; any stable sort —
here `List.insertionSort` — produces that unique output). -/
def mostCommon (n : Nat) (m : List (String × Nat)) : List (String × Nat) :=
  (m.insertionSort (fun a b => b.2 ≤ a.2)).take n

/-! ### Regular-expression engine

A minimal backtracking matcher with Python `re` semantics for the features
the three patterns of `_extract_terms` use: character classes, concatenation,
greedy `*` / `+` / `?`, and the word boundary `\b`. -/

/-- Regular expressions over characters. -/
inductive Rex : Type where
  | cls (p : Char → Bool) : Rex
  | seq (a b : Rex) : Rex
  | star (a : Rex) : Rex
  | opt (a : Rex) : Rex
  | wordB : Rex

/-- Greedy `+`. -/
def Rex.plus (a : Rex) : Rex := .seq a (.star a)

/-- Structural size, used to bound backtracking depth. -/
def sizeRex : Rex → Nat
  | .cls _ => 1
  | .seq a b => sizeRex a + sizeRex b + 1
  | .star a => sizeRex a + 1
  | .opt a => sizeRex a + 1
  | .wordB => 1

/-- `\b` holds between `prev` and the head of `s` iff exactly one side is a
word character (start / end of string count as non-word). -/
def isBoundary (prev : Option Char) (s : List Char) : Bool :=
  let pw := match prev with | some c => isWordChar c | none => false
  let nw := match s with | c :: _ => isWordChar c | [] => false
  pw != nw

/-- Backtracking matcher in continuation style.  `runRex fuel r s prev k`
tries to match `r` at the start of `s` (with `prev` the character just
before `s`), exploring alternatives in Python's greedy preference order, and
calls `k` on the remaining input for each candidate until `k` succeeds.
`fuel` bounds the recursion depth. -/
def runRex : Nat → Rex → List Char → Option Char →
    (List Char → Option Char → Option (List Char)) → Option (List Char)
  | 0, _, _, _, _ => none
  | _ + 1, .cls _, [], _, _ => none
  | _ + 1, .cls p, c :: s, _, k => if p c then k s (some c) else none
  | fuel + 1, .seq a b, s, prev, k =>
    runRex fuel a s prev (fun s2 p2 => runRex fuel b s2 p2 k)
  | fuel + 1, .star a, s, prev, k =>
    (runRex fuel a s prev (fun s2 p2 =>
      if s2.length < s.length then runRex fuel (.star a) s2 p2 k else none)).or
    (k s prev)
  | fuel + 1, .opt a, s, prev, k => (runRex fuel a s prev k).or (k s prev)
  | _ + 1, .wordB, s, prev, k => if isBoundary prev s then k s prev else none

/-- Ample fuel for `runRex` on input `s`. -/
def fuelFor (r : Rex) (s : List Char) : Nat :=
  (sizeRex r + 4) * (s.length + 4)

/-- One step of `re.findall`: scan left to right, at each position attempt a
match; on a (non-empty) match emit it and resume after it, otherwise advance
one character. -/
def findallAux (r : Rex) : Nat → List Char → Option Char → List (List Char)
  | 0, _, _ => []
  | _ + 1, [], _ => []
  | gas + 1, c :: rest, prev =>
    match runRex (fuelFor r (c :: rest)) r (c :: rest) prev
      (fun s2 _ => some s2) with
    | some rem =>
      let s := c :: rest
      if rem.length < s.length then
        let m := s.take (s.length - rem.length)
        m :: findallAux r gas rem (m.getLast?.or prev)
      else
        findallAux r gas rest (some c)
    | none => findallAux r gas rest (some c)

/-- `re.findall(r, text)` returning matched substrings. -/
def findall (r : Rex) (text : String) : List String :=
  (findallAux r (text.data.length + 1) text.data none).map
    (fun cs => String.mk cs)

/-! ### Term extraction (`TrendScorer._extract_terms`) -/

/-- `STOP_TERMS` from `trend_scorer.py`. -/
def stopTerms : List String :=
  ["the", "and", "for", "that", "this", "with", "from", "are", "was",
   "has", "have", "will", "can", "but", "not", "you", "all", "they",
   "their", "its", "our", "your", "one", "two", "new", "more", "how",
   "what", "when", "who", "why", "would", "could", "should",
   "about", "into", "than", "been", "just", "also", "some", "very",
   "most", "like", "over", "after", "before", "between", "under",
   "through", "during", "first", "last", "next", "other", "many",
   "much", "each", "every", "both", "any"]

/-- The pattern `[A-Za-z0-9]*`. -/
def alnumStar : Rex := .star (.cls isAlnumChar)

/-- The pattern `\b[A-Z][A-Za-z0-9]*(?:\s+[A-Z][A-Za-z0-9]*)*\b`
(capitalized words and multi-word capitalized phrases). -/
def capsRex : Rex :=
  .seq .wordB
    (.seq (.cls isUpperChar)
      (.seq alnumStar
        (.seq
          (.star (.seq (Rex.plus (.cls isSpaceChar))
            (.seq (.cls isUpperChar) alnumStar)))
          .wordB)))

/-- The pattern `\b[A-Z]{2,6}\b` (all-caps acronyms), with the greedy
counted repetition `{2,6}` written as two mandatory letters followed by a
nest of greedy optionals. -/
def acronymRex : Rex :=
  .seq .wordB
    (.seq (.cls isUpperChar)
      (.seq (.cls isUpperChar)
        (.seq
          (.opt (.seq (.cls isUpperChar)
            (.opt (.seq (.cls isUpperChar)
              (.opt (.seq (.cls isUpperChar)
                (.opt (.cls isUpperChar))))))))
          .wordB)))

/-- The pattern `#(\w+)` (hashtag-style terms). -/
def hashtagRex : Rex := .seq (.cls (fun c => c = '#')) (Rex.plus (.cls isWordChar))

/-- `TrendScorer._extract_terms`: capitalized words/phrases (length ≥ 2 and
not a stop term after lowercasing), then all-caps acronyms (not stop terms),
then hashtag bodies, in that order, duplicates kept. -/
def extract_terms (text : String) : List String :=
  if text = "" then []
  else
    let capTerms := (findall capsRex text).filterMap (fun cap =>
      let cleaned := pyStrip cap
      if 2 ≤ pyLen cleaned then
        if stopTerms.contains (pyLower cleaned) then none else some cleaned
      else none)
    let acrTerms := (findall acronymRex text).filter
      (fun acr => !(stopTerms.contains (pyLower acr)))
    let tagTerms :=
      (findallAux hashtagRex (text.data.length + 1) text.data none).map
        (fun cs => String.mk (cs.drop 1))
    capTerms ++ acrTerms ++ tagTerms

/-! ### Data model -/

/-- The `engagement` mapping of an article; absent keys default to 0 in
`_engagement_factor`. -/
structure Engagement : Type where
  likes : Nat
  retweets : Nat
  replies : Nat
  upvotes : Nat
deriving DecidableEq

/-- An article record as consumed and mutated by the scorer.  `published` is
`none` when the article has no `published` field (the code then substitutes
`datetime.now`); `engagement := none` models an absent or falsy engagement
mapping. -/
structure Article : Type where
  title : String
  summary : String
  source : String
  published : Option ℚ
  engagement : Option Engagement
  trend_score : ℚ
  is_trending : Bool
deriving DecidableEq

/-- A well-formed history snapshot as built by `save_history`. -/
structure Snapshot : Type where
  timestamp : String
  mentions : List (String × Nat)
deriving DecidableEq

/-- The mutable state of a `TrendScorer` instance. -/
structure ScorerState : Type where
  history : List Snapshot
  current_mentions : List (String × Nat)
  current_sources : List (String × List String)
deriving DecidableEq

/-- A fresh scorer whose constructor loaded `history`. -/
def initState (history : List Snapshot) : ScorerState :=
  ⟨history, [], []⟩

/-- A trending-topic record as produced by `get_trending_topics`. -/
structure Topic : Type where
  term : String
  mentions : Nat
  sources : List String
  num_sources : Nat
  velocity : ℚ
  direction : String
  score : ℚ
deriving DecidableEq

/-- JSON values, the parse result of `json.load`. -/
inductive Json : Type where
  | null : Json
  | bool (b : Bool) : Json
  | num (n : Int) : Json
  | str (s : String) : Json
  | arr (elems : List Json) : Json
  | obj (fields : List (String × Json)) : Json

/-- The Python exceptions `_load_history` can meet beyond `JSONDecodeError`:
`TypeError` and `AttributeError` from the pruning comprehension, and
`OSError` (permission denied, path is a directory, ...) or
`UnicodeDecodeError` (bytes that are not valid UTF-8) from opening and
reading the file inside the `try` block. -/
inductive PyErr : Type where
  | attributeError : PyErr
  | typeError : PyErr
  | osError : PyErr
  | unicodeDecodeError : PyErr
deriving DecidableEq

/-- The state of the persisted history file as seen by `_load_history`:
missing; present but unopenable/unreadable (`open` or the read inside
`json.load` raises `OSError`); readable but not valid UTF-8 (the decode
raises `UnicodeDecodeError`); decodable text that is not valid JSON
(`json.loads` raises `JSONDecodeError`); or text parsed to a JSON value. -/
inductive FileState : Type where
  | absent : FileState
  | osErrorOnOpen : FileState
  | invalidUtf8 : FileState
  | unparseable : FileState
  | parsed (j : Json) : FileState

/-! ### History store (`_load_history`, `save_history`, `_get_historical_avg`) -/

/-- `dict.get(key, default)` on a JSON object.  Any other receiver has no
`get` method, so the call raises `AttributeError`. -/
def jsonGet (j : Json) (key : String) (dflt : Json) : Except PyErr Json :=
  match j with
  | .obj fields => .ok ((alookup fields key).getD dflt)
  | _ => .error .attributeError

/-- The comparison `v >= cutoff` where `cutoff` is a string: defined only
when `v` is itself a string, otherwise Python raises `TypeError`. -/
def jsonGeStr (v : Json) (cutoff : String) : Except PyErr Bool :=
  match v with
  | .str s => .ok (pyStrGe s cutoff)
  | _ => .error .typeError

/-- The filter condition of the comprehension in `_load_history`:
`s.get("timestamp", "") >= cutoff`. -/
def snapshotKeep (cutoffIso : String) (s : Json) : Except PyErr Bool :=
  match jsonGet s ("timestamp") (.str ("")) with
  | .error e => .error e
  | .ok ts => jsonGeStr ts cutoffIso

/-- The list comprehension `[s for s in data if s.get("timestamp", "") >= cutoff]`,
evaluated left to right with the first exception aborting it. -/
def pruneJson (cutoffIso : String) : List Json → Except PyErr (List Json)
  | [] => .ok []
  | s :: rest =>
    match snapshotKeep cutoffIso s with
    | .error e => .error e
    | .ok keep =>
      match pruneJson cutoffIso rest with
      | .error e => .error e
      | .ok tail => .ok (if keep then s :: tail else tail)

/-- Iterating `for s in data` over a parsed JSON value and running the
pruning comprehension.  Arrays iterate their elements; strings iterate their
characters as length-1 strings and objects iterate their keys (so any
non-empty string or object immediately hits `AttributeError` at `s.get`);
numbers, booleans and `null` are not iterable, raising `TypeError`. -/
def comprehendJson (cutoffIso : String) (data : Json) : Except PyErr (List Json) :=
  match data with
  | .arr elems => pruneJson cutoffIso elems
  | .str s =>
    match s.data with
    | [] => .ok []
    | _ :: _ => .error .attributeError
  | .obj fields =>
    match fields with
    | [] => .ok []
    | _ :: _ => .error .attributeError
  | .num _ => .error .typeError
  | .bool _ => .error .typeError
  | .null => .error .typeError

/-- `TrendScorer._load_history`, at the JSON level.  `cutoffIso` is the
`isoformat()` string of `now − 7 days`.  A missing file yields `[]` without
entering the `try` block; inside it, only `json.JSONDecodeError` and
`TypeError` are caught (yielding `[]`), so an `OSError` or
`UnicodeDecodeError` raised while opening/reading the existing file, and
any `AttributeError` from the comprehension, escape to the caller. -/
def load_history_json (cutoffIso : String) (file : FileState) :
    Except PyErr (List Json) :=
  match file with
  | .absent => .ok []
  | .osErrorOnOpen => .error .osError
  | .invalidUtf8 => .error .unicodeDecodeError
  | .unparseable => .ok []
  | .parsed data =>
    match comprehendJson cutoffIso data with
    | .ok l => .ok l
    | .error .typeError => .ok []
    | .error e => .error e

/-- The JSON encoding of a snapshot, as written by `json.dump`. -/
def snapshotToJson (s : Snapshot) : Json :=
  .obj [(("timestamp"), .str s.timestamp),
        (("mentions"), .obj (s.mentions.map (fun p => (p.1, Json.num p.2))))]

/-- Read a term's count out of a persisted snapshot object:
`snapshot["mentions"][term]`, as `_get_historical_avg` does on loaded
history entries. -/
def snapshotJsonCount (j : Json) (term : String) : Option Json :=
  match j with
  | .obj fields =>
    match alookup fields ("mentions") with
    | some (.obj ms) => alookup ms term
    | _ => none
  | _ => none

/-- `TrendScorer.save_history`: append a snapshot of the current mentions
(timestamped `nowIso`, capped to the 200 most common terms), re-prune the
history by the 7-day cutoff `saveCutoffIso`, store the pruned history and
dump it to the file as JSON.  The two `datetime.now` results are the
explicit parameters. -/
def save_history (nowIso saveCutoffIso : String) (st : ScorerState) :
    ScorerState × Json :=
  let snapshot : Snapshot := ⟨nowIso, mostCommon 200 st.current_mentions⟩
  let appended := st.history ++ [snapshot]
  let pruned := appended.filter (fun s => pyStrGe s.timestamp saveCutoffIso)
  ({ st with history := pruned }, .arr (pruned.map snapshotToJson))

/-- `TrendScorer._get_historical_avg`: mean of the term's count over all
retained snapshots, a snapshot without the term counting 0; `0.0` with no
history. -/
def get_historical_avg (history : List Snapshot) (term : String) : ℚ :=
  match history with
  | [] => 0
  | _ :: _ =>
    let counts := history.map (fun s => ((alookup s.mentions term).getD 0 : Nat))
    if counts = [] then 0 else ((counts.sum : ℚ) / (counts.length : ℚ))

/-! ### Scoring math -/

/-- `TrendScorer._calculate_velocity` (the local `hist_avg` inlined). -/
def calculate_velocity (history : List Snapshot) (term : String)
    (current_count : Nat) : ℚ :=
  if get_historical_avg history term = 0 then
    if 2 ≤ current_count then 2 else 1.5
  else
    min ((current_count : ℚ) / get_historical_avg history term) 10

/-- `TrendScorer._temporal_weight`; times are in seconds. -/
def temporal_weight (now pubDate : ℚ) : ℚ :=
  let hoursOld := (now - pubDate) / 3600
  if hoursOld < 1 then 1
  else if hoursOld < 6 then 0.85
  else if hoursOld < 12 then 0.7
  else if hoursOld < 24 then 0.5
  else 0.3

/-- `TrendScorer._engagement_factor`; `log10` abstracts `math.log10`. -/
def engagement_factor (log10 : ℚ → ℚ) (a : Article) : ℚ :=
  match a.engagement with
  | none => 1
  | some e =>
    let total := e.likes + e.retweets * 2 + e.replies + e.upvotes
    if total = 0 then 1 else 1 + log10 (1 + (total : ℚ)) * 0.2

/-- The cross-source bonus `min(1.0 + 0.15 * (num_sources - 1), 2.0)`. -/
def crossSourceBonus (numSources : Nat) : ℚ :=
  min (1 + 0.15 * ((numSources : ℚ) - 1)) 2

/-! ### `score_articles` -/

/-- `Counter[t] += 1`: bump an existing key in place, append a new key. -/
def incr (m : List (String × Nat)) (t : String) : List (String × Nat) :=
  match m with
  | [] => [(t, 1)]
  | (k, c) :: rest => if k = t then (k, c + 1) :: rest else (k, c) :: incr rest t

/-- `current_sources[t].add(src)` on a `defaultdict(set)`, sets kept as
duplicate-free lists in insertion order. -/
def addSource (m : List (String × List String)) (t src : String) :
    List (String × List String) :=
  match m with
  | [] => [(t, [src])]
  | (k, srcs) :: rest =>
    if k = t then (k, if src ∈ srcs then srcs else srcs ++ [src]) :: rest
    else (k, srcs) :: addSource rest t src

/-- The text an article is mined for terms: `f"{title} {summary}"`. -/
def articleText (a : Article) : String := a.title ++ (" ") ++ a.summary

/-- Phase 1 of `score_articles`: count mentions and record sources. -/
def phase1 (st : ScorerState) (articles : List Article) : ScorerState :=
  articles.foldl (fun st a =>
    (extract_terms (articleText a)).foldl (fun st t =>
      { st with
        current_mentions := incr st.current_mentions t
        current_sources := addSource st.current_sources t a.source }) st) st

/-- The number of distinct sources recorded for a term (`defaultdict`
yields the empty set for unseen terms). -/
def numSourcesOf (st : ScorerState) (term : String) : Nat :=
  ((alookup st.current_sources term).getD []).length

/-- Phase 2 of `score_articles`: per-term scores, skipping single mentions. -/
def termScores (st : ScorerState) : List (String × ℚ) :=
  st.current_mentions.filterMap (fun p =>
    if p.2 < 2 then none
    else some (p.1,
      calculate_velocity st.history p.1 p.2 * crossSourceBonus (numSourcesOf st p.1)))

/-- The per-term score recorded by phase 2 of `score_articles`. -/
def termScoreOf (st : ScorerState) (term : String) (count : Nat) : ℚ :=
  calculate_velocity st.history term count * crossSourceBonus (numSourcesOf st term)

/-- Phase 3 of `score_articles`: per-article trend score. -/
def phase3 (log10 : ℚ → ℚ) (now : ℚ) (scores : List (String × ℚ))
    (articles : List Article) : List Article :=
  articles.map (fun a =>
    let terms := extract_terms (articleText a)
    let maxTermScore := pyMax (terms.map (fun t => (alookup scores t).getD 0)) 0
    { a with trend_score :=
        pyRound2 (maxTermScore * engagement_factor log10 a *
          temporal_weight now (a.published.getD now)) })

/-- A throwaway article value for `List.getD` (never returned: the index is
only read when the list has at least 15 elements). -/
def defaultArticle : Article := ⟨(""), (""), (""), none, none, 0, false⟩

/-- Phase 4's threshold: the score of the 15th-highest-scoring article when
at least 15 exist, else the fixed floor `0.5`. -/
def trendingThreshold (scored : List Article) : ℚ :=
  let sortedArticles := scored.insertionSort (fun a b => b.trend_score ≤ a.trend_score)
  if 15 ≤ sortedArticles.length then
    (sortedArticles.getD 14 defaultArticle).trend_score
  else 0.5

/-- `TrendScorer.score_articles`: the four phases, returning the updated
aggregate state and the articles with `trend_score` and `is_trending`
populated. -/
def score_articles (log10 : ℚ → ℚ) (now : ℚ) (st : ScorerState)
    (articles : List Article) : ScorerState × List Article :=
  let st1 := phase1 st articles
  let scores := termScores st1
  let scored := phase3 log10 now scores articles
  let threshold := trendingThreshold scored
  (st1, scored.map (fun a =>
    { a with is_trending := decide (max threshold 0.5 ≤ a.trend_score) }))

/-! ### `get_trending_topics` -/

/-- `TrendScorer.get_trending_topics` (its `articles` argument is unused in
the source, so it is omitted here): for the 100 most-mentioned terms, skip
single mentions and velocities below 1.0, classify a direction, score, and
return the top 15 by score. -/
def get_trending_topics (st : ScorerState) : List Topic :=
  let termData := (mostCommon 100 st.current_mentions).filterMap (fun p =>
    if p.2 < 2 then none
    else
      let velocity := calculate_velocity st.history p.1 p.2
      if velocity < 1 then none
      else
        let sources := ((alookup st.current_sources p.1).getD []).take 5
        let histAvg := get_historical_avg st.history p.1
        let direction :=
          if histAvg = 0 then ("new")
          else if 1.5 < velocity then ("up")
          else if 0.8 < velocity then ("stable")
          else ("down")
        let numSources := numSourcesOf st p.1
        let crossSource := crossSourceBonus numSources
        let score := velocity * crossSource
        some { term := p.1, mentions := p.2, sources := sources,
               num_sources := numSources, velocity := pyRound2 velocity,
               direction := direction, score := pyRound2 score })
  (termData.insertionSort (fun a b => b.score ≤ a.score)).take 15

/-! ### Auxiliary definitions and concrete fixtures -/

/-- Reset the two scorer-written fields; two article lists agree after
`scrubArticle` exactly when they coincide in every other field, in order. -/
def scrubArticle (a : Article) : Article :=
  { a with trend_score := 0, is_trending := false }

/-- Fixture for the "GPT-5" scenario: article from source `alpha`. -/
def articleG1 : Article :=
  ⟨("GPT-5 Launches Today"), (""), ("alpha"), some 0, none, 0, false⟩

/-- Fixture for the "GPT-5" scenario: article from source `beta`. -/
def articleG2 : Article :=
  ⟨("OpenAI GPT-5 Review"), (""), ("beta"), some 0, none, 0, false⟩

/-- Fixture for the "GPT-5" scenario: second article from source `alpha`. -/
def articleG3 : Article :=
  ⟨("Why GPT-5 Matters"), (""), ("alpha"), some 0, none, 0, false⟩

/-- The three-article "GPT-5" batch across two distinct sources. -/
def batchGpt : List Article := [articleG1, articleG2, articleG3]

/-- The aggregate state after phase 1 on the "GPT-5" batch, no history. -/
def stGpt : ScorerState := phase1 (initState []) batchGpt

/-- The single topic record produced for the "GPT-5" batch. -/
def topicGpt : Topic :=
  ⟨("GPT"), 4, [("alpha"), ("beta")], 2, pyRound2 2, ("new"),
    pyRound2 (2 * crossSourceBonus 2)⟩

/-- A one-snapshot history giving term `x` a historical average of 4. -/
def histWith4 : List Snapshot := [⟨("t"), [(("x"), 4)]⟩]

/-- A two-snapshot history: term `x` counted 3, then absent. -/
def histTwoSnaps : List Snapshot := [⟨("t"), [(("x"), 3)]⟩, ⟨("u"), []⟩]

/-- A small aggregate state: term `a` counted twice from two sources. -/
def stateTwoSources : ScorerState :=
  ⟨[], [(("a"), 2), (("b"), 1)], [(("a"), [("s1"), ("s2")])]⟩

/-- A small state for the save/load round trip. -/
def stateRoundTrip : ScorerState := ⟨[], [(("a"), 3), (("b"), 1)], []⟩

/-! ### Shared lemmas -/

theorem alookup_mem {α : Type} {m : List (String × α)} {k : String} {v : α}
    (h : alookup m k = some v) : (k, v) ∈ m := by
  induction m with
  | nil => simp [alookup] at h
  | cons p rest ih =>
    obtain ⟨k', v'⟩ := p
    by_cases hk : k' = k
    · subst hk
      simp [alookup] at h
      simp [h]
    · simp only [alookup, if_neg hk] at h
      exact List.mem_cons_of_mem _ (ih h)

theorem alookup_of_nodup_mem {α : Type} {m : List (String × α)} {k : String}
    {v : α} (hnodup : (m.map Prod.fst).Nodup) (h : (k, v) ∈ m) :
    alookup m k = some v := by
  induction m with
  | nil => simp at h
  | cons p rest ih =>
    obtain ⟨k', v'⟩ := p
    simp only [List.map_cons, List.nodup_cons] at hnodup
    rcases List.mem_cons.mp h with heq | htail
    · rw [Prod.mk.injEq] at heq
      simp [alookup, heq.1, heq.2]
    · have hk : k' ≠ k := by
        intro hkk
        subst hkk
        exact hnodup.1 (List.mem_map.mpr ⟨(k', v), htail, rfl⟩)
      simp only [alookup, if_neg hk]
      exact ih hnodup.2 htail

theorem alookup_map_value {α β : Type} (m : List (String × α)) (f : α → β)
    (k : String) :
    alookup (m.map (fun p => (p.1, f p.2))) k = (alookup m k).map f := by
  induction m with
  | nil => simp [alookup]
  | cons p rest ih =>
    by_cases hk : p.1 = k
    · simp [alookup, hk]
    · simp [alookup, hk, ih]

theorem keys_incr (m : List (String × Nat)) (t : String) :
    (incr m t).map Prod.fst = m.map Prod.fst ∨
    (incr m t).map Prod.fst = m.map Prod.fst ++ [t] := by
  induction m with
  | nil => right; simp [incr]
  | cons p rest ih =>
    obtain ⟨k, c⟩ := p
    by_cases hk : k = t
    · left; simp [incr, hk]
    · rcases ih with h | h
      · left; simp [incr, hk, h]
      · right; simp [incr, hk, h]

theorem nodup_keys_incr {m : List (String × Nat)} {t : String}
    (hnodup : (m.map Prod.fst).Nodup) : ((incr m t).map Prod.fst).Nodup := by
  induction m with
  | nil => simp [incr]
  | cons p rest ih =>
    obtain ⟨k, c⟩ := p
    simp only [List.map_cons, List.nodup_cons] at hnodup
    by_cases hk : k = t
    · simp only [incr, if_pos hk, List.map_cons, List.nodup_cons]
      exact ⟨hnodup.1, hnodup.2⟩
    · simp only [incr, if_neg hk, List.map_cons, List.nodup_cons]
      refine ⟨?_, ih hnodup.2⟩
      rcases keys_incr rest t with h | h
      · rw [h]; exact hnodup.1
      · rw [h]
        intro hmem
        rcases List.mem_append.mp hmem with h1 | h1
        · exact hnodup.1 h1
        · simp at h1
          exact hk h1

theorem nodup_keys_phase1 (st : ScorerState) (articles : List Article)
    (hnodup : (st.current_mentions.map Prod.fst).Nodup) :
    ((phase1 st articles).current_mentions.map Prod.fst).Nodup := by
  induction articles generalizing st with
  | nil => exact hnodup
  | cons a rest ih =>
    simp only [phase1, List.foldl_cons]
    apply ih
    generalize extract_terms (articleText a) = terms
    induction terms generalizing st with
    | nil => exact hnodup
    | cons t ts ihn =>
      simp only [List.foldl_cons]
      exact ihn _ (nodup_keys_incr hnodup)

theorem phase1_def (st : ScorerState) (articles : List Article) :
    phase1 st articles = articles.foldl (fun st a =>
      (extract_terms (articleText a)).foldl (fun st t =>
        { st with
          current_mentions := incr st.current_mentions t
          current_sources := addSource st.current_sources t a.source }) st) st :=
  rfl

theorem roundHalfEven_ge_floor (q : ℚ) : ⌊q⌋ ≤ roundHalfEven q := by
  unfold roundHalfEven
  split_ifs <;> omega

theorem one_le_pyRound2 {q : ℚ} (h : 1 ≤ q) : 1 ≤ pyRound2 q := by
  unfold pyRound2
  rw [le_div_iff₀ (by norm_num : (0:ℚ) < 100), one_mul]
  have h100 : (100 : ℚ) ≤ q * 100 := by linarith
  have hfloor : (100 : ℤ) ≤ ⌊q * 100⌋ := by
    have := Int.le_floor.mpr (by exact_mod_cast h100)
    exact_mod_cast this
  have := roundHalfEven_ge_floor (q * 100)
  exact_mod_cast le_trans (by exact_mod_cast hfloor) (by exact_mod_cast this)

theorem mem_of_mem_mostCommon {n : Nat} {m : List (String × Nat)}
    {p : String × Nat} (h : p ∈ mostCommon n m) : p ∈ m := by
  have hsub := List.mem_of_mem_take h
  exact (List.mem_insertionSort (fun a b => b.2 ≤ a.2)).mp hsub

theorem nodup_keys_mostCommon {n : Nat} {m : List (String × Nat)}
    (hnodup : (m.map Prod.fst).Nodup) :
    ((mostCommon n m).map Prod.fst).Nodup := by
  have hperm : List.Perm
      ((m.insertionSort (fun a b => b.2 ≤ a.2)).map Prod.fst)
      (m.map Prod.fst) :=
    (List.perm_insertionSort (fun a b => b.2 ≤ a.2) m).map Prod.fst
  have hsorted : ((m.insertionSort (fun a b => b.2 ≤ a.2)).map Prod.fst).Nodup :=
    hperm.nodup_iff.mpr hnodup
  have htake : List.Sublist ((mostCommon n m).map Prod.fst)
      ((m.insertionSort (fun a b => b.2 ≤ a.2)).map Prod.fst) :=
    (List.take_sublist n _).map Prod.fst
  exact htake.nodup hsorted

theorem termScores_eq_filterMap (st : ScorerState) :
    termScores st = st.current_mentions.filterMap (fun p =>
      if p.2 < 2 then none else some (p.1, termScoreOf st p.1 p.2)) := rfl

theorem alookup_filterMap_if {F : String → Nat → ℚ} {m : List (String × Nat)}
    {term : String} {count : Nat} (hnodup : (m.map Prod.fst).Nodup)
    (hmem : alookup m term = some count) :
    alookup (m.filterMap (fun p =>
        if p.2 < 2 then none else some (p.1, F p.1 p.2))) term =
      if count < 2 then none else some (F term count) := by
  induction m with
  | nil => simp [alookup] at hmem
  | cons p rest ih =>
    obtain ⟨k, c⟩ := p
    simp only [List.map_cons, List.nodup_cons] at hnodup
    by_cases hk : k = term
    · subst hk
      simp only [alookup, if_pos rfl] at hmem
      obtain rfl : c = count := Option.some.inj hmem
      by_cases hc : c < 2
      · simp only [List.filterMap_cons, if_pos hc]
        -- the key occurs nowhere in the tail, so the lookup misses entirely
        cases hlook : alookup (rest.filterMap (fun p =>
            if p.2 < 2 then none else some (p.1, F p.1 p.2))) k with
        | none => rfl
        | some v =>
          exfalso
          have hmem2 := alookup_mem hlook
          obtain ⟨q, hq, hfq⟩ := List.mem_filterMap.mp hmem2
          have hq1 : q.1 = k := by
            by_cases h2 : q.2 < 2
            · simp [if_pos h2] at hfq
            · simp [if_neg h2] at hfq
              exact hfq.1
          exact hnodup.1 (List.mem_map.mpr ⟨q, hq, hq1⟩)
      · simp only [List.filterMap_cons, if_neg hc]
        simp [alookup, if_neg hc]
    · simp only [alookup, if_neg hk] at hmem
      simp only [List.filterMap_cons]
      by_cases hc : c < 2
      · simp only [if_pos hc]
        exact ih hnodup.2 hmem
      · simp only [if_neg hc]
        simp only [alookup, if_neg hk]
        exact ih hnodup.2 hmem

theorem alookup_termScores_of_mem {st : ScorerState} {term : String}
    {count : Nat} (hnodup : (st.current_mentions.map Prod.fst).Nodup)
    (hmem : alookup st.current_mentions term = some count) :
    alookup (termScores st) term =
      if count < 2 then none else some (termScoreOf st term count) := by
  rw [termScores_eq_filterMap]
  exact alookup_filterMap_if hnodup hmem

/-- Characterization of topic records: every record emitted by
`get_trending_topics` stems from an entry of the 100 most common terms with
count at least 2 and velocity at least 1, and its fields are exactly the
values computed there. -/
theorem mem_topics_spec {st : ScorerState} {t : Topic}
    (ht : t ∈ get_trending_topics st) :
    ∃ p ∈ mostCommon 100 st.current_mentions,
      ¬ p.2 < 2 ∧ ¬ calculate_velocity st.history p.1 p.2 < 1 ∧
      t = { term := p.1, mentions := p.2,
            sources := ((alookup st.current_sources p.1).getD []).take 5,
            num_sources := numSourcesOf st p.1,
            velocity := pyRound2 (calculate_velocity st.history p.1 p.2),
            direction :=
              if get_historical_avg st.history p.1 = 0 then ("new")
              else if 1.5 < calculate_velocity st.history p.1 p.2 then ("up")
              else if 0.8 < calculate_velocity st.history p.1 p.2 then ("stable")
              else ("down"),
            score := pyRound2 (calculate_velocity st.history p.1 p.2 *
              crossSourceBonus (numSourcesOf st p.1)) } := by
  unfold get_trending_topics at ht
  have ht2 := List.mem_of_mem_take ht
  have ht3 := (List.mem_insertionSort (fun a b : Topic => b.score ≤ a.score)).mp ht2
  obtain ⟨p, hp, hfp⟩ := List.mem_filterMap.mp ht3
  refine ⟨p, hp, ?_⟩
  by_cases h2 : p.2 < 2
  · simp [if_pos h2] at hfp
  · by_cases hv : calculate_velocity st.history p.1 p.2 < 1
    · simp [if_neg h2, if_pos hv] at hfp
    · refine ⟨h2, hv, ?_⟩
      simp only [if_neg h2, if_neg hv, Option.some.injEq] at hfp
      exact hfp.symm

theorem pruneJson_ok_sub {c : String} {elems l : List Json}
    (h : pruneJson c elems = .ok l) : ∀ j ∈ l, j ∈ elems := by
  induction elems generalizing l with
  | nil =>
    simp only [pruneJson] at h
    obtain rfl : ([] : List Json) = l := Except.ok.inj h
    simp
  | cons s rest ih =>
    simp only [pruneJson] at h
    cases hkeep : snapshotKeep c s with
    | error e => rw [hkeep] at h; cases h
    | ok keep =>
      rw [hkeep] at h
      cases htail : pruneJson c rest with
      | error e => rw [htail] at h; cases h
      | ok tail =>
        rw [htail] at h
        obtain rfl := Except.ok.inj h
        intro j hj
        by_cases hk : keep = true
        · subst hk
          simp only [if_pos rfl] at hj
          rcases List.mem_cons.mp hj with rfl | hj2
          · exact List.mem_cons_self ..
          · exact List.mem_cons_of_mem _ (ih htail j hj2)
        · simp only [Bool.not_eq_true] at hk
          subst hk
          simp at hj
          exact List.mem_cons_of_mem _ (ih htail j hj)

theorem snapshotKeep_toJson (c : String) (s : Snapshot) :
    snapshotKeep c (snapshotToJson s) = .ok (pyStrGe s.timestamp c) := rfl

theorem pruneJson_map_snapshots (c : String) (l : List Snapshot) :
    pruneJson c (l.map snapshotToJson) =
      .ok ((l.filter (fun s => pyStrGe s.timestamp c)).map snapshotToJson) := by
  induction l with
  | nil => rfl
  | cons s rest ih =>
    simp only [List.map_cons, pruneJson, snapshotKeep_toJson, ih, List.filter_cons]
    by_cases hk : pyStrGe s.timestamp c = true
    · simp [hk]
    · simp only [Bool.not_eq_true] at hk
      simp [hk]

theorem pruneJson_objs_classify (c : String) {elems : List Json}
    (hobj : ∀ j ∈ elems, ∃ fields, j = Json.obj fields) :
    (∃ l, pruneJson c elems = .ok l) ∨ pruneJson c elems = .error .typeError := by
  induction elems with
  | nil => exact Or.inl ⟨[], rfl⟩
  | cons s rest ih =>
    obtain ⟨fields, rfl⟩ := hobj s (List.mem_cons_self ..)
    simp only [pruneJson]
    have hkeep : snapshotKeep c (Json.obj fields) = .error .typeError ∨
        ∃ b, snapshotKeep c (Json.obj fields) = .ok b := by
      simp only [snapshotKeep, jsonGet]
      cases (alookup fields ("timestamp")).getD (Json.str ("")) with
      | str s2 => exact Or.inr ⟨_, rfl⟩
      | null => exact Or.inl rfl
      | bool b => exact Or.inl rfl
      | num n => exact Or.inl rfl
      | arr es => exact Or.inl rfl
      | obj fs => exact Or.inl rfl
    rcases hkeep with hkeep | ⟨b, hkeep⟩
    · rw [hkeep]
      exact Or.inr rfl
    · rw [hkeep]
      rcases ih (fun j hj => hobj j (List.mem_cons_of_mem _ hj)) with ⟨l, hl⟩ | hl

      · rw [hl]
        exact Or.inl ⟨_, rfl⟩
      · rw [hl]
        exact Or.inr rfl

theorem jsonGet_error_attr {j : Json} {k : String} {d : Json} {e : PyErr}
    (h : jsonGet j k d = .error e) : e = .attributeError := by
  cases j with
  | obj fields => cases h
  | null => exact (Except.error.inj h).symm
  | bool b => exact (Except.error.inj h).symm
  | num n => exact (Except.error.inj h).symm
  | str s => exact (Except.error.inj h).symm
  | arr es => exact (Except.error.inj h).symm

theorem jsonGeStr_error_type {v : Json} {c : String} {e : PyErr}
    (h : jsonGeStr v c = .error e) : e = .typeError := by
  cases v with
  | str s => cases h
  | null => exact (Except.error.inj h).symm
  | bool b => exact (Except.error.inj h).symm
  | num n => exact (Except.error.inj h).symm
  | arr es => exact (Except.error.inj h).symm
  | obj fields => exact (Except.error.inj h).symm

theorem snapshotKeep_error_cases {c : String} {s : Json} {e : PyErr}
    (h : snapshotKeep c s = .error e) :
    e = .typeError ∨ e = .attributeError := by
  unfold snapshotKeep at h
  cases hg : jsonGet s ("timestamp") (.str ("")) with
  | error e2 =>
    rw [hg] at h
    exact Or.inr ((Except.error.inj h) ▸ jsonGet_error_attr hg)
  | ok ts =>
    rw [hg] at h
    exact Or.inl (jsonGeStr_error_type h)

theorem pruneJson_error_cases {c : String} {elems : List Json} {e : PyErr}
    (h : pruneJson c elems = .error e) :
    e = .typeError ∨ e = .attributeError := by
  induction elems with
  | nil => cases h
  | cons s rest ih =>
    simp only [pruneJson] at h
    cases hk : snapshotKeep c s with
    | error e2 =>
      rw [hk] at h
      exact (Except.error.inj h) ▸ snapshotKeep_error_cases hk
    | ok b =>
      rw [hk] at h
      cases ht : pruneJson c rest with
      | error e2 =>
        rw [ht] at h
        have he : e2 = e := Except.error.inj h
        rw [he] at ht
        exact ih ht
      | ok tail =>
        rw [ht] at h
        cases h

theorem comprehendJson_error_cases {c : String} {data : Json} {e : PyErr}
    (h : comprehendJson c data = .error e) :
    e = .typeError ∨ e = .attributeError := by
  cases data with
  | arr elems => exact pruneJson_error_cases h
  | str s =>
    simp only [comprehendJson] at h
    cases hs : s.data with
    | nil => rw [hs] at h; cases h
    | cons a as => rw [hs] at h; exact Or.inr (Except.error.inj h).symm
  | obj fields =>
    simp only [comprehendJson] at h
    cases fields with
    | nil => cases h
    | cons a as => exact Or.inr (Except.error.inj h).symm
  | num n => exact Or.inl (Except.error.inj h).symm
  | bool b => exact Or.inl (Except.error.inj h).symm
  | null => exact Or.inl (Except.error.inj h).symm

theorem load_history_parsed_error_attr {cutoff : String} {data : Json}
    {e : PyErr} (h : load_history_json cutoff (.parsed data) = .error e) :
    e = .attributeError := by
  simp only [load_history_json] at h
  cases hc : comprehendJson cutoff data with
  | ok l => rw [hc] at h; cases h
  | error e2 =>
    rcases comprehendJson_error_cases hc with rfl | rfl
    · rw [hc] at h
      cases h
    · rw [hc] at h
      exact (Except.error.inj h).symm

theorem load_history_parsed_arr_ok {c : String} {elems l : List Json}
    (h : pruneJson c elems = .ok l) :
    load_history_json c (.parsed (.arr elems)) = .ok l := by
  simp only [load_history_json, comprehendJson, h]

/-! ### Claims -/

/-- C1: for every term, `_calculate_velocity(term, current_count)` returns
exactly 2.0 when the historical average is 0 and `current_count ≥ 2`,
exactly 1.5 when the historical average is 0 and `current_count < 2`, and
otherwise returns `current_count / historical_average` capped so the result
never exceeds 10.0. -/
theorem claim_C1_velocity_formula (history : List Snapshot) (term : String)
    (count : Nat) :
    (get_historical_avg history term = 0 → 2 ≤ count →
      calculate_velocity history term count = 2) ∧
    (get_historical_avg history term = 0 → count < 2 →
      calculate_velocity history term count = 1.5) ∧
    (get_historical_avg history term ≠ 0 →
      calculate_velocity history term count =
        min ((count : ℚ) / get_historical_avg history term) 10 ∧
      calculate_velocity history term count ≤ 10) := by
  unfold calculate_velocity
  refine ⟨fun h0 h2 => by rw [if_pos h0, if_pos h2],
          fun h0 h2 => by rw [if_pos h0, if_neg (by omega)],
          fun h0 => ?_⟩
  rw [if_neg h0]
  exact ⟨rfl, min_le_right _ _⟩

/-- Witness for C1: all three branches at concrete inputs (empty history
with counts 3 and 1; a history averaging 4 with count 8, so the ratio
branch yields 8/4 = 2). -/
theorem claim_C1_velocity_formula_witness :
    calculate_velocity [] ("x") 3 = 2 ∧
    calculate_velocity [] ("x") 1 = 1.5 ∧
    calculate_velocity histWith4 ("x") 8 = 2 := by
  have havg : get_historical_avg histWith4 ("x") = 4 := by
    norm_num [get_historical_avg, histWith4, alookup]
  refine ⟨(claim_C1_velocity_formula [] ("x") 3).1 rfl (by norm_num),
          (claim_C1_velocity_formula [] ("x") 1).2.1 rfl (by norm_num), ?_⟩
  have h := (claim_C1_velocity_formula histWith4 ("x") 8).2.2 (by rw [havg]; norm_num)
  rw [h.1, havg]
  rw [show ((8 : Nat) : ℚ) / 4 = 2 by norm_num]
  exact min_eq_left (by norm_num)

/-- C5: for every term, `_get_historical_avg` returns the arithmetic mean of
that term's count over all retained snapshots, counting the term as 0 in
snapshots where it is absent, and returns exactly 0.0 when no snapshots are
retained. -/
theorem claim_C5_historical_avg (history : List Snapshot) (term : String) :
    (history = [] → get_historical_avg history term = 0) ∧
    (history ≠ [] →
      get_historical_avg history term =
        (history.map (fun s => (((alookup s.mentions term).getD 0 : Nat) : ℚ))).sum /
          (history.length : ℚ)) := by
  constructor
  · rintro rfl
    rfl
  · intro hne
    cases history with
    | nil => exact absurd rfl hne
    | cons s rest =>
      simp only [get_historical_avg]
      rw [if_neg (by simp)]
      rw [Nat.cast_list_sum, List.map_map, List.length_map]
      rfl

/-- Witness for C5: a two-snapshot history where the term is counted 3 and
then absent gives average (3 + 0) / 2 = 3/2. -/
theorem claim_C5_historical_avg_witness :
    get_historical_avg histTwoSnaps ("x") = 3 / 2 := by
  have h := (claim_C5_historical_avg histTwoSnaps ("x")).2 (by simp [histTwoSnaps])
  rw [h]
  norm_num [histTwoSnaps, alookup]

/-- C8: for every term with `n` distinct mentioning sources, the
cross-source bonus equals `min(1.0 + 0.15 × (n − 1), 2.0)`; in particular a
term mentioned by 20 distinct sources gets bonus exactly 2.0, and the term
score equals velocity times this bonus both in `score_articles` phase 2 and
in `get_trending_topics` (whose record stores that product rounded to two
decimals, the velocity used in it being the unrounded one). -/
theorem claim_C8_cross_source (st : ScorerState) (term : String)
    (count n : Nat) :
    crossSourceBonus n = min (1 + 0.15 * ((n : ℚ) - 1)) 2 ∧
    crossSourceBonus 20 = 2 ∧
    ((st.current_mentions.map Prod.fst).Nodup →
      alookup st.current_mentions term = some count → 2 ≤ count →
      alookup (termScores st) term =
        some (calculate_velocity st.history term count *
          crossSourceBonus (numSourcesOf st term))) ∧
    (∀ t ∈ get_trending_topics st,
      t.score = pyRound2 (calculate_velocity st.history t.term t.mentions *
        crossSourceBonus t.num_sources)) := by
  refine ⟨rfl, ?_, ?_, ?_⟩
  · unfold crossSourceBonus
    rw [min_eq_right (by norm_num)]
  · intro hnodup hmem h2
    rw [alookup_termScores_of_mem hnodup hmem, if_neg (by omega)]
    rfl
  · intro t ht
    obtain ⟨p, hp, h2, hv, rfl⟩ := mem_topics_spec ht
    rfl

/-- Witness for C8: the 20-source cap and the phase-2 entry for a term
counted twice across two sources with no history (velocity 2, bonus 1.15,
score 2.3). -/
theorem claim_C8_cross_source_witness :
    crossSourceBonus 20 = 2 ∧
    alookup (termScores stateTwoSources) ("a") =
      some (calculate_velocity [] ("a") 2 * crossSourceBonus 2) := by
  refine ⟨(claim_C8_cross_source stateTwoSources ("a") 2 20).2.1, ?_⟩
  exact (claim_C8_cross_source stateTwoSources ("a") 2 20).2.2.1
    (by decide) (by decide) (by decide)

/-- C10: every topic record returned by `get_trending_topics` has direction
`"new"`, `"up"` or `"stable"` — never `"down"` — and carries a velocity of
at least 1.0 and a mention count of at least 2, because terms with velocity
below 1.0 or count below 2 are skipped before classification. -/
theorem claim_C10_topic_invariants (st : ScorerState) (t : Topic)
    (ht : t ∈ get_trending_topics st) :
    (t.direction = ("new") ∨ t.direction = ("up") ∨ t.direction = ("stable")) ∧
    t.direction ≠ ("down") ∧ 1 ≤ t.velocity ∧ 2 ≤ t.mentions := by
  obtain ⟨p, hp, h2, hv, rfl⟩ := mem_topics_spec ht
  have hvge : (1 : ℚ) ≤ calculate_velocity st.history p.1 p.2 := not_lt.mp hv
  have hdir : (if get_historical_avg st.history p.1 = 0 then ("new")
      else if 1.5 < calculate_velocity st.history p.1 p.2 then ("up")
      else if 0.8 < calculate_velocity st.history p.1 p.2 then ("stable")
      else ("down")) = ("new") ∨
      (if get_historical_avg st.history p.1 = 0 then ("new")
      else if 1.5 < calculate_velocity st.history p.1 p.2 then ("up")
      else if 0.8 < calculate_velocity st.history p.1 p.2 then ("stable")
      else ("down")) = ("up") ∨
      (if get_historical_avg st.history p.1 = 0 then ("new")
      else if 1.5 < calculate_velocity st.history p.1 p.2 then ("up")
      else if 0.8 < calculate_velocity st.history p.1 p.2 then ("stable")
      else ("down")) = ("stable") := by
    by_cases h0 : get_historical_avg st.history p.1 = 0
    · left
      rw [if_pos h0]
    · by_cases h15 : (1.5 : ℚ) < calculate_velocity st.history p.1 p.2
      · right; left
        rw [if_neg h0, if_pos h15]
      · right; right
        have h08 : (0.8 : ℚ) < calculate_velocity st.history p.1 p.2 := by
          have : (0.8 : ℚ) < 1 := by norm_num
          linarith
        rw [if_neg h0, if_neg h15, if_pos h08]
  refine ⟨hdir, ?_, one_le_pyRound2 hvge, show 2 ≤ p.2 by omega⟩
  show (if get_historical_avg st.history p.1 = 0 then ("new")
      else if 1.5 < calculate_velocity st.history p.1 p.2 then ("up")
      else if 0.8 < calculate_velocity st.history p.1 p.2 then ("stable")
      else ("down")) ≠ ("down")
  rcases hdir with h | h | h <;> rw [h] <;> decide

/-- Witness for C10: the single topic of the "GPT-5" batch. -/
theorem claim_C10_topic_invariants_witness :
    (topicGpt.direction = ("new") ∨ topicGpt.direction = ("up") ∨
      topicGpt.direction = ("stable")) ∧
    topicGpt.direction ≠ ("down") ∧ 1 ≤ topicGpt.velocity ∧
    2 ≤ topicGpt.mentions := by
  have hm : topicGpt ∈ get_trending_topics stGpt := by
    have h : get_trending_topics stGpt = [topicGpt] := rfl
    rw [h]
    exact List.mem_cons_self ..
  exact claim_C10_topic_invariants stGpt topicGpt hm

/-- C7: a term mentioned exactly once in the batch never appears in the
phase-2 `term_scores` mapping, never appears in the output of
`get_trending_topics`, and contributes 0.0 (not its own score) to every
article's max-term-score lookup, so it never affects any article's trend
score. -/
theorem claim_C7_singleton_exclusion (history : List Snapshot)
    (batch : List Article) (term : String)
    (h1 : alookup (phase1 (initState history) batch).current_mentions term =
      some 1) :
    alookup (termScores (phase1 (initState history) batch)) term = none ∧
    ((alookup (termScores (phase1 (initState history) batch)) term).getD 0 : ℚ)
      = 0 ∧
    ∀ t ∈ get_trending_topics (phase1 (initState history) batch),
      t.term ≠ term := by
  have hnodup :
      ((phase1 (initState history) batch).current_mentions.map Prod.fst).Nodup :=
    nodup_keys_phase1 _ _ (by simp [initState])
  have hnone := alookup_termScores_of_mem hnodup h1
  rw [if_pos (by omega)] at hnone
  refine ⟨hnone, by rw [hnone]; rfl, ?_⟩
  intro t ht
  obtain ⟨p, hp, h2, hv, rfl⟩ := mem_topics_spec ht
  show p.1 ≠ term
  intro hterm
  have hpm := mem_of_mem_mostCommon hp
  have hpm2 : (p.1, p.2) ∈ (phase1 (initState history) batch).current_mentions := by
    simpa using hpm
  have hlook := alookup_of_nodup_mem hnodup hpm2
  rw [hterm, h1] at hlook
  have hcount : 1 = p.2 := Option.some.inj hlook
  omega

/-- Witness for C7: in the "GPT-5" batch the term `Review` is mentioned
exactly once and is excluded everywhere. -/
theorem claim_C7_singleton_exclusion_witness :
    alookup (termScores stGpt) ("Review") = none ∧
    ((alookup (termScores stGpt) ("Review")).getD 0 : ℚ) = 0 ∧
    ∀ t ∈ get_trending_topics stGpt, t.term ≠ ("Review") :=
  claim_C7_singleton_exclusion [] batchGpt ("Review") (by decide)

/-- C9: `score_articles` returns the article list in the order it was
given, and on each article it writes only `trend_score` and `is_trending`,
leaving every other field unchanged (the sort used for the trending cutoff
operates on a separate copy). -/
theorem claim_C9_frame (log10 : ℚ → ℚ) (now : ℚ) (st : ScorerState)
    (articles : List Article) :
    ((score_articles log10 now st articles).2).map scrubArticle =
      articles.map scrubArticle ∧
    ((score_articles log10 now st articles).2).length = articles.length := by
  constructor
  · simp only [score_articles, phase3, List.map_map]
    rfl
  · simp only [score_articles, phase3, List.length_map]

/-- C2: the trending cutoff equals the `trend_score` of the 15th-highest
scoring article when the batch has at least 15 articles and 0.5 otherwise,
and an article's `is_trending` flag is set true iff its `trend_score` is at
least `max(cutoff, 0.5)`; in particular with fewer than 15 articles no
article is flagged trending unless its score is at least 0.5. -/
theorem claim_C2_trending_cutoff (log10 : ℚ → ℚ) (now : ℚ) (st : ScorerState)
    (articles : List Article) :
    (15 ≤ articles.length →
      trendingThreshold (phase3 log10 now (termScores (phase1 st articles)) articles) =
        (((phase3 log10 now (termScores (phase1 st articles)) articles).insertionSort
            (fun a b => b.trend_score ≤ a.trend_score)).getD 14
          defaultArticle).trend_score) ∧
    (articles.length < 15 →
      trendingThreshold
        (phase3 log10 now (termScores (phase1 st articles)) articles) = 0.5) ∧
    (∀ a ∈ (score_articles log10 now st articles).2,
      a.is_trending = true ↔
        max (trendingThreshold
          (phase3 log10 now (termScores (phase1 st articles)) articles)) 0.5 ≤
          a.trend_score) ∧
    (articles.length < 15 →
      ∀ a ∈ (score_articles log10 now st articles).2,
        a.is_trending = true → 0.5 ≤ a.trend_score) := by
  have hlen : (phase3 log10 now (termScores (phase1 st articles)) articles).length
      = articles.length := by
    simp [phase3]
  have hsortlen :
      ((phase3 log10 now (termScores (phase1 st articles)) articles).insertionSort
        (fun a b => b.trend_score ≤ a.trend_score)).length = articles.length := by
    rw [List.length_insertionSort, hlen]
  have hthr1 : 15 ≤ articles.length →
      trendingThreshold (phase3 log10 now (termScores (phase1 st articles)) articles) =
        (((phase3 log10 now (termScores (phase1 st articles)) articles).insertionSort
            (fun a b => b.trend_score ≤ a.trend_score)).getD 14
          defaultArticle).trend_score := by
    intro h15
    unfold trendingThreshold
    rw [if_pos (by rw [hsortlen]; exact h15)]
  have hthr2 : articles.length < 15 →
      trendingThreshold
        (phase3 log10 now (termScores (phase1 st articles)) articles) = 0.5 := by
    intro hlt
    unfold trendingThreshold
    rw [if_neg (by rw [hsortlen]; omega)]
  have hiff : ∀ a ∈ (score_articles log10 now st articles).2,
      a.is_trending = true ↔
        max (trendingThreshold
          (phase3 log10 now (termScores (phase1 st articles)) articles)) 0.5 ≤
          a.trend_score := by
    intro a ha
    have hout : (score_articles log10 now st articles).2 =
        (phase3 log10 now (termScores (phase1 st articles)) articles).map (fun b =>
          { b with is_trending := decide (max (trendingThreshold
              (phase3 log10 now (termScores (phase1 st articles)) articles)) 0.5 ≤
            b.trend_score) }) := rfl
    rw [hout] at ha
    obtain ⟨b, hb, rfl⟩ := List.mem_map.mp ha
    show (decide _ = true) ↔ _
    exact decide_eq_true_iff
  refine ⟨hthr1, hthr2, hiff, ?_⟩
  intro hlt a ha htrue
  have h05 := (hiff a ha).mp htrue
  calc (0.5 : ℚ) ≤ max (trendingThreshold
      (phase3 log10 now (termScores (phase1 st articles)) articles)) 0.5 :=
        le_max_right _ _
    _ ≤ a.trend_score := h05

/-- Witness for C2: the empty batch has fewer than 15 articles, so the
cutoff is the fixed floor 0.5. -/
theorem claim_C2_trending_cutoff_witness :
    trendingThreshold
      (phase3 (fun _ => 0) 0 (termScores (phase1 (initState []) [])) []) = 0.5 :=
  (claim_C2_trending_cutoff (fun _ => 0) 0 (initState []) []).2.1 (by decide)

/-- Counterexample to C3: the parseable JSON document `[1]` — a list whose
element is not a snapshot object — makes the comprehension call `(1).get`,
raising an `AttributeError` that `except (json.JSONDecodeError, TypeError)`
does not catch, so the exception propagates instead of an empty history
being returned. -/
theorem claim_C3_counterexample :
    load_history_json ("2024-01-01T00:00:00+00:00")
      (.parsed (.arr [.num 1])) = .error .attributeError ∧
    ∀ l, load_history_json ("2024-01-01T00:00:00+00:00")
      (.parsed (.arr [.num 1])) ≠ .ok l := by
  refine ⟨rfl, ?_⟩
  intro l h
  rw [show load_history_json ("2024-01-01T00:00:00+00:00")
      (.parsed (.arr [.num 1])) = .error .attributeError from rfl] at h
  cases h

/-- C3 amended: a missing file, text that is not valid JSON (the caught
`JSONDecodeError`), a non-iterable JSON value (number, boolean, null), or a
JSON list of snapshot objects (even with missing or non-string timestamps,
which raise the caught `TypeError`) makes loading return an empty — or, in
the all-objects case, merely pruned — history with no exception, a warning
being logged exactly when an exception was caught, and a caught error
resets totally; but an existing file that cannot be opened or read
(`OSError`) or whose bytes are not valid UTF-8 (`UnicodeDecodeError`), and
parseable JSON iterating to non-object values (a non-empty list with a
non-object element, or a non-empty top-level object or string, raising
`AttributeError`), all escape the `except (json.JSONDecodeError, TypeError)`
clause and propagate to the caller; `AttributeError` is the only exception
a successfully parsed document can propagate. -/
theorem claim_C3_load_recovery (cutoff : String) :
    load_history_json cutoff .absent = .ok [] ∧
    load_history_json cutoff .unparseable = .ok [] ∧
    (∀ n : ℤ, load_history_json cutoff (.parsed (.num n)) = .ok []) ∧
    (∀ b : Bool, load_history_json cutoff (.parsed (.bool b)) = .ok []) ∧
    load_history_json cutoff (.parsed .null) = .ok [] ∧
    (∀ elems : List Json, (∀ j ∈ elems, ∃ fields, j = Json.obj fields) →
      ∃ l, load_history_json cutoff (.parsed (.arr elems)) = .ok l ∧
        ∀ j ∈ l, j ∈ elems) ∧
    load_history_json cutoff .osErrorOnOpen = .error .osError ∧
    load_history_json cutoff .invalidUtf8 = .error .unicodeDecodeError ∧
    (∀ data e, load_history_json cutoff (.parsed data) = .error e →
      e = .attributeError) ∧
    (∀ file e, load_history_json cutoff file = .error e →
      e = .attributeError ∨ e = .osError ∨ e = .unicodeDecodeError) := by
  refine ⟨rfl, rfl, fun n => rfl, fun b => rfl, rfl, ?_, rfl, rfl,
    fun data e h => load_history_parsed_error_attr h, ?_⟩
  · intro elems hobj
    rcases pruneJson_objs_classify cutoff hobj with ⟨l, hl⟩ | hl
    · refine ⟨l, ?_, pruneJson_ok_sub hl⟩
      simp only [load_history_json, comprehendJson, hl]
    · refine ⟨[], ?_, by simp⟩
      simp only [load_history_json, comprehendJson, hl]
  · intro file e h
    cases file with
    | absent => cases h
    | unparseable => cases h
    | osErrorOnOpen => exact Or.inr (Or.inl (Except.error.inj h).symm)
    | invalidUtf8 => exact Or.inr (Or.inr (Except.error.inj h).symm)
    | parsed data => exact Or.inl (load_history_parsed_error_attr h)

/-- Witness for C3 amended: an existing file of invalid JSON text resets to
empty; a one-object snapshot list loads with no exception; and an
unopenable existing file propagates its `OSError`. -/
theorem claim_C3_load_recovery_witness :
    load_history_json ("2024-01-01T00:00:00+00:00") .unparseable = .ok [] ∧
    load_history_json ("2024-01-01T00:00:00+00:00") .osErrorOnOpen =
      .error .osError ∧
    ∃ l, load_history_json ("2024-01-01T00:00:00+00:00")
        (.parsed (.arr [Json.obj [(("timestamp"), Json.str ("2024-06-01"))]]))
        = .ok l ∧
      ∀ j ∈ l, j ∈ [Json.obj [(("timestamp"), Json.str ("2024-06-01"))]] := by
  refine ⟨(claim_C3_load_recovery ("2024-01-01T00:00:00+00:00")).2.1,
    (claim_C3_load_recovery ("2024-01-01T00:00:00+00:00")).2.2.2.2.2.2.1, ?_⟩
  refine (claim_C3_load_recovery ("2024-01-01T00:00:00+00:00")).2.2.2.2.2.1
    [Json.obj [(("timestamp"), Json.str ("2024-06-01"))]] ?_
  intro j hj
  rw [List.mem_singleton.mp hj]
  exact ⟨_, rfl⟩

/-- Counterexample to C4: in a 3-article batch whose titles all contain the
text "GPT-5", spread across exactly 2 distinct sources and scored with
empty history, the string "GPT-5" itself is never an extracted term (the
capitalized-run and acronym patterns both stop at the hyphen), so it has no
phase-2 term score at all — in particular not 2.3. -/
theorem claim_C4_counterexample :
    List.IsInfix (("GPT-5").data) articleG1.title.data ∧
    List.IsInfix (("GPT-5").data) articleG2.title.data ∧
    List.IsInfix (("GPT-5").data) articleG3.title.data ∧
    (batchGpt.map (fun a => a.source)).dedup.length = 2 ∧
    (initState []).history = [] ∧
    alookup stGpt.current_mentions ("GPT-5") = none ∧
    alookup (termScores stGpt) ("GPT-5") = none ∧
    ((alookup (termScores stGpt) ("GPT-5")).getD 0 : ℚ) ≠ 2.3 := by
  refine ⟨by decide, by decide, by decide, by decide, rfl, by decide, by decide, ?_⟩
  rw [show alookup (termScores stGpt) ("GPT-5") = none by decide]
  norm_num

/-- C4 amended: the term actually extracted from those titles is "GPT" (the
patterns split at the hyphen; it is counted once per capitalized-run match
and once per acronym match), and "GPT" — counted 4 times across the 2
sources with empty history — receives the phase-2 term score
2.0 (novelty velocity) × 1.15 (2-source bonus) = 2.3 exactly. -/
theorem claim_C4_gpt_term_score :
    termScores stGpt =
      [(("GPT"), calculate_velocity [] ("GPT") 4 * crossSourceBonus 2)] ∧
    alookup stGpt.current_mentions ("GPT") = some 4 ∧
    numSourcesOf stGpt ("GPT") = 2 ∧
    calculate_velocity [] ("GPT") 4 = 2 ∧
    crossSourceBonus 2 = 1.15 ∧
    calculate_velocity [] ("GPT") 4 * crossSourceBonus 2 = 2.3 := by
  refine ⟨rfl, by decide, by decide, rfl, ?_, ?_⟩
  · unfold crossSourceBonus
    rw [min_eq_left (by norm_num)]
    norm_num
  · rw [show calculate_velocity [] ("GPT") 4 = 2 from rfl]
    unfold crossSourceBonus
    rw [min_eq_left (by norm_num)]
    norm_num

/-- C6: saving the current mentions and then loading the persisted file —
the load-time 7-day cutoff not exceeding the snapshot's timestamp, before
any further snapshot is appended — yields a history whose newest snapshot
maps every term that was among the top 200 by count to exactly its saved
count.  The timestamp hypotheses state, at the level of the ISO-8601
strings the code compares, that the snapshot is within the window at both
save and load time. -/
theorem claim_C6_round_trip (st : ScorerState) (nowIso saveCut loadCut : String)
    (hnodup : (st.current_mentions.map Prod.fst).Nodup)
    (hsave : pyStrGe nowIso saveCut = true)
    (hload : pyStrGe nowIso loadCut = true)
    (term : String) (count : Nat)
    (hmem : (term, count) ∈ mostCommon 200 st.current_mentions) :
    ∃ l, load_history_json loadCut (.parsed (save_history nowIso saveCut st).2)
        = .ok l ∧
      l.getLast? =
        some (snapshotToJson ⟨nowIso, mostCommon 200 st.current_mentions⟩) ∧
      snapshotJsonCount
        (snapshotToJson ⟨nowIso, mostCommon 200 st.current_mentions⟩) term =
        some (.num count) ∧
      alookup st.current_mentions term = some count := by
  have hmc : alookup (mostCommon 200 st.current_mentions) term = some count :=
    alookup_of_nodup_mem (nodup_keys_mostCommon hnodup) hmem
  have hcm : alookup st.current_mentions term = some count :=
    alookup_of_nodup_mem hnodup (mem_of_mem_mostCommon hmem)
  have hfilterSnap : List.filter (fun s : Snapshot => pyStrGe s.timestamp saveCut)
      [(⟨nowIso, mostCommon 200 st.current_mentions⟩ : Snapshot)] =
      [(⟨nowIso, mostCommon 200 st.current_mentions⟩ : Snapshot)] := by
    simp [hsave]
  have hfile : (save_history nowIso saveCut st).2 =
      Json.arr ((st.history.filter (fun s : Snapshot => pyStrGe s.timestamp saveCut)
        ++ [(⟨nowIso, mostCommon 200 st.current_mentions⟩ : Snapshot)]).map
          snapshotToJson) := by
    show Json.arr
        (((st.history ++
            [(⟨nowIso, mostCommon 200 st.current_mentions⟩ : Snapshot)]).filter
          (fun s : Snapshot => pyStrGe s.timestamp saveCut)).map snapshotToJson) =
      Json.arr ((st.history.filter (fun s : Snapshot => pyStrGe s.timestamp saveCut)
        ++ [(⟨nowIso, mostCommon 200 st.current_mentions⟩ : Snapshot)]).map
          snapshotToJson)
    rw [List.filter_append, hfilterSnap]
  have hfilterSnap2 : List.filter (fun s : Snapshot => pyStrGe s.timestamp loadCut)
      [(⟨nowIso, mostCommon 200 st.current_mentions⟩ : Snapshot)] =
      [(⟨nowIso, mostCommon 200 st.current_mentions⟩ : Snapshot)] := by
    simp [hload]
  have hprune := pruneJson_map_snapshots loadCut
    (st.history.filter (fun s : Snapshot => pyStrGe s.timestamp saveCut) ++
      [(⟨nowIso, mostCommon 200 st.current_mentions⟩ : Snapshot)])
  rw [List.filter_append, hfilterSnap2] at hprune
  have hloadok : load_history_json loadCut
      (.parsed (save_history nowIso saveCut st).2) =
      .ok ((((st.history.filter (fun s : Snapshot => pyStrGe s.timestamp saveCut)).filter
          (fun s : Snapshot => pyStrGe s.timestamp loadCut)).map snapshotToJson) ++
        [snapshotToJson ⟨nowIso, mostCommon 200 st.current_mentions⟩]) := by
    rw [hfile, load_history_parsed_arr_ok hprune]
    simp [List.map_append]
  refine ⟨_, hloadok, List.getLast?_concat _, ?_, hcm⟩
  show alookup ((mostCommon 200 st.current_mentions).map
    (fun p => (p.1, Json.num (p.2 : Int)))) term = some (.num count)
  have hmap := alookup_map_value (mostCommon 200 st.current_mentions)
    (fun c : Nat => Json.num (c : Int)) term
  simp only [hmap, hmc]
  rfl

/-- Witness for C6: a two-term state saved at time string `"2"` with both
cutoffs `"1"`; the term `a` (count 3, within the top 200) round-trips. -/
theorem claim_C6_round_trip_witness :
    ∃ l, load_history_json ("1")
        (.parsed (save_history ("2") ("1") stateRoundTrip).2) = .ok l ∧
      l.getLast? = some (snapshotToJson
        ⟨("2"), mostCommon 200 stateRoundTrip.current_mentions⟩) ∧
      snapshotJsonCount (snapshotToJson
        ⟨("2"), mostCommon 200 stateRoundTrip.current_mentions⟩) ("a") =
        some (.num 3) ∧
      alookup stateRoundTrip.current_mentions ("a") = some 3 :=
  claim_C6_round_trip stateRoundTrip ("2") ("1") ("1")
    (by decide) (by decide) (by decide) ("a") 3 (by decide)

end TrendScorer
